import Mathlib

/-!
Verification of the `ConceptRouter` action registry
(`src/conceptRouter.ts`).

The registry is embedded shallowly: the class's three record fields
(`actions`, `options`, `syncs`) become association lists keyed by the
action name, method calls that mutate `this` become functions from state
to state, and a `throw` becomes an `Except.error` carrying the thrown
message.  Handler values (`RequestHandler`) are opaque to the registry,
so the embedding is generic over a type `α` of handlers.

The CRUD action bodies delegate to a document-store collaborator
(`ConceptDb`, declared in the repository but outside the sources given
here); that collaborator is modelled from the specification's contract
for it, and each such definition says so in its doc comment.
-/

namespace ConceptRouter

/-- The `ActionOptions` record from the source: an optional ordered list
of validators (`'validate'?: Validator[]`). -/
structure ActionOptions (α : Type) where
  validate : Option (List α)
deriving Repr, DecidableEq

/-- The mutable state of one `ConceptRouter` instance: its resource
`name` and the three maps `actions`, `options`, `syncs`, embedded as
association lists (a JS `Record` keyed by strings).  New bindings are
consed at the front, so `List.lookup` sees the most recent binding,
matching property lookup after assignment. -/
structure RouterState (α : Type) where
  name : String
  actions : List (String × α)
  options : List (String × ActionOptions α)
  syncs : List (String × List α)
deriving Repr, DecidableEq

variable {α : Type}

/-- The state of a freshly constructed router: the constructor takes the
collaborator's name and leaves all three maps empty. -/
def initState (routerName : String) : RouterState α :=
  ⟨routerName, [], [], []⟩

/-- Message of the error thrown by `defineAction` on a duplicate name
(the spec's DuplicateActionError). -/
def duplicateActionMsg (name routerName : String) : String :=
  "Action " ++ name ++ " already defined in " ++ routerName ++ " concept!"

/-- Message of the error thrown by `action` on an unknown name
(the spec's UnknownActionError). -/
def unknownActionMsg (name routerName : String) : String :=
  "Action " ++ name ++ " does not exist in " ++ routerName ++ " concept!"

/-- Message of the error thrown by `handlers` on an unknown name
(the spec's UnknownActionError). -/
def handlersUnknownMsg (name : String) : String :=
  "Action " ++ name ++ " is not defined!"

/-- `action(name)`: throws if `name` is not in `this.actions`, otherwise
returns `this.actions[name]`. -/
def action (s : RouterState α) (name : String) : Except String α :=
  match s.actions.lookup name with
  | none => .error (unknownActionMsg name s.name)
  | some a => .ok a

/-- `defineAction(name, action, options?)`: throws if `name` is already
in `this.actions`; otherwise stores the body under `name` and, when an
`options` argument was supplied (`if (options)`), stores it under `name`
in `this.options`. -/
def defineAction (s : RouterState α) (name : String) (body : α)
    (options : Option (ActionOptions α)) : Except String (RouterState α) :=
  match s.actions.lookup name with
  | some _ => .error (duplicateActionMsg name s.name)
  | none =>
    .ok { s with
          actions := (name, body) :: s.actions,
          options :=
            match options with
            | some o => (name, o) :: s.options
            | none => s.options }

/-- `sync(name, action)`: creates `this.syncs[name] = []` when absent,
then pushes `action` onto it.  Total: the source performs no check and
throws nothing. -/
def sync (s : RouterState α) (name : String) (a : α) : RouterState α :=
  let cur := (s.syncs.lookup name).getD []
  { s with syncs := (name, cur ++ [a]) :: s.syncs }

/-- `handlers(name)`: throws if `name` is not in `this.actions`;
otherwise returns the validators recorded for `name` (none when the
options entry is absent or its `validate` field is missing, mirroring
`this.options[name].validate || []`) followed by the action body. -/
def handlers (s : RouterState α) (name : String) : Except String (List α) :=
  match s.actions.lookup name with
  | none => .error (handlersUnknownMsg name)
  | some body =>
    let vs : List α :=
      match s.options.lookup name with
      | none => []
      | some o => o.validate.getD []
    .ok (vs ++ [body])

/-- States reachable from a fresh router by any sequence of the state
changing calls: a successful `defineAction` and any `sync`.  (`action`
and `handlers` read the state without changing it, and a failed
`defineAction` throws before assigning, leaving the state as it was.) -/
inductive Reachable : RouterState α → Prop where
  | init (routerName : String) : Reachable (initState routerName)
  | defineOk {s s' : RouterState α} {n : String} {b : α}
      {o : Option (ActionOptions α)} :
      Reachable s → defineAction s n b o = .ok s' → Reachable s'
  | syncStep {s : RouterState α} (n : String) (a : α) :
      Reachable s → Reachable (sync s n a)

/-- Looking a key up in an association list directly after binding it
finds the new binding. -/
theorem lookup_cons_self (n : String) (b : α) (l : List (String × α)) :
    List.lookup n ((n, b) :: l) = some b := by
  simp [List.lookup]

/-- Looking up a different key skips a fresh binding. -/
theorem lookup_cons_ne {m n : String} (h : m ≠ n) (b : α)
    (l : List (String × α)) :
    List.lookup m ((n, b) :: l) = List.lookup m l := by
  have hb : (m == n) = false := beq_eq_false_iff_ne.mpr h
  simp [List.lookup, hb]

/-- A successful `defineAction s n b o` binds `b` to `n` in the result's
`actions` map. -/
theorem defineAction_ok_actions {s s' : RouterState α} {n : String}
    {b : α} {o : Option (ActionOptions α)}
    (h : defineAction s n b o = .ok s') :
    s'.actions = (n, b) :: s.actions := by
  unfold defineAction at h
  cases hl : s.actions.lookup n with
  | none =>
    rw [hl] at h
    cases h
    rfl
  | some a => rw [hl] at h; cases h

/-- A successful `defineAction s n b o` extends the `options` map with
the supplied options when there are some, and leaves it alone otherwise. -/
theorem defineAction_ok_options {s s' : RouterState α} {n : String}
    {b : α} {o : Option (ActionOptions α)}
    (h : defineAction s n b o = .ok s') :
    s'.options = match o with
                 | some oo => (n, oo) :: s.options
                 | none => s.options := by
  unfold defineAction at h
  cases hl : s.actions.lookup n with
  | none =>
    rw [hl] at h
    cases h
    cases o <;> rfl
  | some a => rw [hl] at h; cases h

/-- A successful `defineAction` leaves the `syncs` map and the router
name unchanged. -/
theorem defineAction_ok_rest {s s' : RouterState α} {n : String}
    {b : α} {o : Option (ActionOptions α)}
    (h : defineAction s n b o = .ok s') :
    s'.syncs = s.syncs ∧ s'.name = s.name := by
  unfold defineAction at h
  cases hl : s.actions.lookup n with
  | none =>
    rw [hl] at h
    cases h
    exact ⟨rfl, rfl⟩
  | some a => rw [hl] at h; cases h

/-- `defineAction` succeeds exactly on names absent from `actions`. -/
theorem defineAction_ok_of_not_mem {s : RouterState α} {n : String}
    (b : α) (o : Option (ActionOptions α))
    (h : s.actions.lookup n = none) :
    ∃ s', defineAction s n b o = .ok s' := by
  refine ⟨{ s with
            actions := (n, b) :: s.actions,
            options :=
              match o with
              | some oo => (n, oo) :: s.options
              | none => s.options }, ?_⟩
  unfold defineAction
  rw [h]

end ConceptRouter

open ConceptRouter

/-- C1: for every name, calling `defineAction` a second time with the
same name fails with the duplicate-action error, the body stored by the
first registration is still the one `action` returns, and `handlers`
still ends in that first body; the failed second call produces no new
state, so no mapping changes. -/
theorem defineAction_twice_duplicate_error {α : Type}
    (s s₁ : RouterState α) (n : String) (b₁ b₂ : α)
    (o₁ o₂ : Option (ActionOptions α))
    (h : defineAction s n b₁ o₁ = .ok s₁) :
    defineAction s₁ n b₂ o₂ = .error (duplicateActionMsg n s.name) ∧
    action s₁ n = .ok b₁ ∧
    ∃ vs, handlers s₁ n = .ok (vs ++ [b₁]) := by
  have ha := defineAction_ok_actions h
  have hr := defineAction_ok_rest h
  have hlook : s₁.actions.lookup n = some b₁ := by
    rw [ha]; exact lookup_cons_self n b₁ s.actions
  refine ⟨?_, ?_, ?_⟩
  · unfold defineAction
    rw [hlook, hr.2]
  · unfold action
    rw [hlook]
  · refine ⟨match s₁.options.lookup n with
            | none => []
            | some o => o.validate.getD [], ?_⟩
    unfold handlers
    rw [hlook]

/-- Witness for C1 at a concrete input: a one-action router over `Nat`
handlers. -/
theorem defineAction_twice_duplicate_error_witness :
    defineAction (RouterState.mk "r" [("a", (0 : Nat))] [] []) "a" 1 none =
      .error (duplicateActionMsg "a" "r") ∧
    action (RouterState.mk "r" [("a", (0 : Nat))] [] []) "a" = .ok 0 ∧
    ∃ vs,
      handlers (RouterState.mk "r" [("a", (0 : Nat))] [] []) "a" =
        .ok (vs ++ [0]) :=
  defineAction_twice_duplicate_error (initState "r")
    (RouterState.mk "r" [("a", 0)] [] []) "a" 0 1 none none rfl

/-- C2: for every name absent from the `actions` table, `action` and
`handlers` both fail with their unknown-action errors; neither returns a
default handler. -/
theorem unknown_name_action_handlers_error {α : Type}
    (s : RouterState α) (n : String)
    (h : s.actions.lookup n = none) :
    action s n = .error (unknownActionMsg n s.name) ∧
    handlers s n = .error (handlersUnknownMsg n) := by
  constructor
  · unfold action; rw [h]
  · unfold handlers; rw [h]

/-- Witness for C2 at a concrete input: a fresh router knows no action
named "a". -/
theorem unknown_name_action_handlers_error_witness :
    action (initState "r" : RouterState Nat) "a" =
      .error (unknownActionMsg "a" "r") ∧
    handlers (initState "r" : RouterState Nat) "a" =
      .error (handlersUnknownMsg "a") :=
  unknown_name_action_handlers_error (initState "r") "a" (by decide)

/-- C3: registering a name with body `b` and validators `vs` makes
`handlers` return exactly `vs ++ [b]`: the validators in registration
order, then the body last. -/
theorem handlers_validators_then_body {α : Type}
    (s s' : RouterState α) (n : String) (b : α) (vs : List α)
    (h : defineAction s n b (some ⟨some vs⟩) = .ok s') :
    handlers s' n = .ok (vs ++ [b]) := by
  have ha := defineAction_ok_actions h
  have ho : s'.options = (n, ⟨some vs⟩) :: s.options :=
    defineAction_ok_options h
  have hlookA : s'.actions.lookup n = some b := by
    rw [ha]; exact lookup_cons_self n b s.actions
  have hlookO : s'.options.lookup n = some ⟨some vs⟩ := by
    rw [ho]; exact lookup_cons_self n _ s.options
  unfold handlers
  rw [hlookA, hlookO]
  rfl

/-- Witness for C3 at a concrete input: validators `[1, 2]` and body `0`
come back as `[1, 2, 0]`. -/
theorem handlers_validators_then_body_witness :
    handlers
      (RouterState.mk "r" [("a", (0 : Nat))] [("a", ⟨some [1, 2]⟩)] [])
      "a" = .ok ([1, 2] ++ [0]) :=
  handlers_validators_then_body (initState "r")
    (RouterState.mk "r" [("a", 0)] [("a", ⟨some [1, 2]⟩)] []) "a" 0 [1, 2]
    rfl

/-- C4: `sync` is total (the source neither checks nor throws, whether
or not the name is a registered action), and two calls on a name with no
prior syncs accumulate the ordered list `[f₁, f₂]`. -/
theorem sync_appends_in_order {α : Type} (s : RouterState α) (n : String)
    (f₁ f₂ : α) (h : s.syncs.lookup n = none) :
    (sync (sync s n f₁) n f₂).syncs.lookup n = some [f₁, f₂] := by
  have h1 : (sync s n f₁).syncs =
      (n, ((s.syncs.lookup n).getD []) ++ [f₁]) :: s.syncs := rfl
  rw [h] at h1
  have h2 : (sync s n f₁).syncs.lookup n = some [f₁] := by
    rw [h1]; exact lookup_cons_self n _ s.syncs
  have h3 : (sync (sync s n f₁) n f₂).syncs =
      (n, (((sync s n f₁).syncs.lookup n).getD []) ++ [f₂]) ::
        (sync s n f₁).syncs := rfl
  rw [h2] at h3
  rw [h3]
  exact lookup_cons_self n _ _

/-- Witness for C4 at a concrete input: the target name need not be a
registered action. -/
theorem sync_appends_in_order_witness :
    (sync (sync (initState "r" : RouterState Nat) "a" 5) "a" 7).syncs.lookup
      "a" = some [5, 7] :=
  sync_appends_in_order (initState "r") "a" 5 7 (by decide)

/-- Counterexample to C5: the source stores the options record whenever
an options argument is supplied (`if (options)`), even one whose
`validate` field is absent.  Registering "a" on a fresh router with the
validator-free options `⟨none⟩` still inserts an entry into the
`options` table, so the table is not left unchanged when no validators
are present. -/
theorem defineAction_options_without_validators_inserted :
    defineAction (initState "r") "a" (0 : Nat) (some ⟨none⟩) =
      .ok (RouterState.mk "r" [("a", 0)] [("a", ⟨none⟩)] []) ∧
    (initState "r" : RouterState Nat).options = [] := ⟨rfl, rfl⟩

/-- C5 as amended: a successful `defineAction(name, body, options)`
binds `body` to `name` in the `actions` table, and inserts into the
`options` table exactly when an options argument is supplied — whether
or not it carries a validators list; when no options argument is
supplied the `options` table is left unchanged.  Other names' bindings
and the `syncs` table are untouched. -/
theorem defineAction_effect {α : Type} (s s' : RouterState α)
    (n : String) (b : α) (o : Option (ActionOptions α))
    (h : defineAction s n b o = .ok s') :
    s'.actions.lookup n = some b ∧
    (∀ m, m ≠ n → s'.actions.lookup m = s.actions.lookup m) ∧
    (∀ oo, o = some oo → s'.options.lookup n = some oo) ∧
    (o = none → s'.options = s.options) ∧
    (∀ m, m ≠ n → s'.options.lookup m = s.options.lookup m) ∧
    s'.syncs = s.syncs := by
  have ha := defineAction_ok_actions h
  refine ⟨?_, ?_, ?_, ?_, ?_, (defineAction_ok_rest h).1⟩
  · rw [ha]; exact lookup_cons_self n b s.actions
  · intro m hm; rw [ha]; exact lookup_cons_ne hm b s.actions
  · intro oo hoo
    subst hoo
    have ho : s'.options = (n, oo) :: s.options := defineAction_ok_options h
    rw [ho]; exact lookup_cons_self n oo s.options
  · intro hnone
    subst hnone
    exact defineAction_ok_options h
  · intro m hm
    cases o with
    | none =>
      have ho : s'.options = s.options := defineAction_ok_options h
      rw [ho]
    | some oo =>
      have ho : s'.options = (n, oo) :: s.options := defineAction_ok_options h
      rw [ho]; exact lookup_cons_ne hm oo s.options

/-- Witness for the amended C5 at a concrete input, with a supplied but
validator-free options record. -/
theorem defineAction_effect_witness :
    (RouterState.mk "r" [("a", (0 : Nat))] [("a", ⟨none⟩)] []).actions.lookup
      "a" = some 0 ∧
    (RouterState.mk "r" [("a", (0 : Nat))] [("a", ⟨none⟩)] []).options.lookup
      "a" = some ⟨none⟩ :=
  ⟨(defineAction_effect (initState "r")
      (RouterState.mk "r" [("a", 0)] [("a", ⟨none⟩)] []) "a" 0 (some ⟨none⟩)
      rfl).1,
   (defineAction_effect (initState "r")
      (RouterState.mk "r" [("a", 0)] [("a", ⟨none⟩)] []) "a" 0 (some ⟨none⟩)
      rfl).2.2.1 ⟨none⟩ rfl⟩

/-- C9: in every reachable registry state, a name bound in the `options`
table is also bound in the `actions` table: options entries are written
only by a successful `defineAction`, which writes the actions entry in
the same step, and no operation removes an actions entry. -/
theorem options_subset_actions {α : Type} (s : RouterState α)
    (h : Reachable s) :
    ∀ n, (s.options.lookup n).isSome → (s.actions.lookup n).isSome := by
  induction h with
  | init rn =>
    intro n hn
    simp [initState, List.lookup] at hn
  | @defineOk t t' m b o hr heq ih =>
    intro n hn
    have ha := defineAction_ok_actions heq
    by_cases hnm : n = m
    · subst hnm
      rw [ha, lookup_cons_self]
      rfl
    · rw [ha, lookup_cons_ne hnm]
      apply ih n
      cases o with
      | none =>
        have ho : t'.options = t.options := defineAction_ok_options heq
        rw [ho] at hn
        exact hn
      | some oo =>
        have ho : t'.options = (m, oo) :: t.options :=
          defineAction_ok_options heq
        rw [ho, lookup_cons_ne hnm] at hn
        exact hn
  | syncStep m a hr ih =>
    intro n hn
    exact ih n hn

/-- Witness for C9 at a concrete reachable state: one successful
`defineAction` with options. -/
theorem options_subset_actions_witness :
    ((RouterState.mk "r" [("a", (0 : Nat))] [("a", ⟨some [1]⟩)]
        []).actions.lookup "a").isSome :=
  options_subset_actions _
    (Reachable.defineOk (Reachable.init "r")
      (show defineAction (initState "r") "a" (0 : Nat) (some ⟨some [1]⟩) =
          .ok (RouterState.mk "r" [("a", 0)] [("a", ⟨some [1]⟩)] []) from
        rfl))
    "a" (by decide)

/-- C10: registering a name with an options record that carries no
validator list (its `validate` field absent, or present but empty) makes
`handlers` return exactly `[body]`, the same result as registering with
no options argument at all. -/
theorem handlers_empty_validators_single {α : Type}
    (s s' s₂ : RouterState α) (n : String) (b : α) (o : ActionOptions α)
    (hv : o.validate = none ∨ o.validate = some [])
    (h : defineAction s n b (some o) = .ok s')
    (h₂ : defineAction s n b none = .ok s₂)
    (hopt : s.options.lookup n = none) :
    handlers s' n = .ok [b] ∧ handlers s₂ n = .ok [b] := by
  constructor
  · have ha := defineAction_ok_actions h
    have ho : s'.options = (n, o) :: s.options := defineAction_ok_options h
    have hlookA : s'.actions.lookup n = some b := by
      rw [ha]; exact lookup_cons_self n b s.actions
    have hlookO : s'.options.lookup n = some o := by
      rw [ho]; exact lookup_cons_self n o s.options
    unfold handlers
    rw [hlookA, hlookO]
    show Except.ok (o.validate.getD [] ++ [b]) = Except.ok [b]
    rcases hv with hv | hv <;> simp [hv]
  · have ha := defineAction_ok_actions h₂
    have ho : s₂.options = s.options := defineAction_ok_options h₂
    have hlookA : s₂.actions.lookup n = some b := by
      rw [ha]; exact lookup_cons_self n b s.actions
    unfold handlers
    rw [hlookA, ho, hopt]
    rfl

/-- Witness for C10 at a concrete input, with a present-but-empty
validator list. -/
theorem handlers_empty_validators_single_witness :
    handlers (RouterState.mk "r" [("a", (0 : Nat))] [("a", ⟨some []⟩)] [])
      "a" = .ok [0] ∧
    handlers (RouterState.mk "r" [("a", (0 : Nat))] [] []) "a" = .ok [0] :=
  handlers_empty_validators_single (initState "r")
    (RouterState.mk "r" [("a", 0)] [("a", ⟨some []⟩)] [])
    (RouterState.mk "r" [("a", 0)] [] []) "a" 0 ⟨some []⟩
    (Or.inr rfl) rfl rfl rfl

namespace ConceptDb

/-- Modelled from the spec: a document held by the store collaborator.
The schema extends a base carrying the store-issued identifier and a
last-updated timestamp; `title` and `content` stand for the
application-data fields a concrete schema adds. -/
structure Doc where
  _id : Nat
  title : String
  content : String
  dateUpdated : Int
deriving Repr, DecidableEq

/-- Insert a document into a list kept in descending `dateUpdated`
order, after every entry at least as recent. -/
def insertDesc (d : Doc) : List Doc → List Doc
  | [] => [d]
  | e :: es =>
    if d.dateUpdated ≤ e.dateUpdated then e :: insertDesc d es
    else d :: e :: es

/-- Sort a list of documents by `dateUpdated`, newest first. -/
def sortDesc : List Doc → List Doc
  | [] => []
  | d :: ds => insertDesc d (sortDesc ds)

/-- Modelled from the spec: `readMany(filter, sortSpec)` of the store
collaborator (declared in the repository outside the given sources)
returns every document matching the filter; under the sort
specification `dateUpdated: -1` they come back ordered by last-updated
timestamp, newest first. -/
def readMany (docs : List Doc) (filter : Doc → Bool)
    (sortDateUpdated : Int) : List Doc :=
  if sortDateUpdated = -1 then sortDesc (docs.filter filter)
  else docs.filter filter

/-- A partial document: the subset of patchable fields supplied by an
update request (`Partial<Schema>`; the store-issued `_id` is not
patchable). -/
structure DocPatch where
  title : Option String
  content : Option String
  dateUpdated : Option Int
deriving Repr, DecidableEq

/-- Apply a partial document to a document: fields present in the patch
take its values, absent fields keep the document's. -/
def applyPatch (d : Doc) (p : DocPatch) : Doc :=
  { d with
    title := p.title.getD d.title,
    content := p.content.getD d.content,
    dateUpdated := p.dateUpdated.getD d.dateUpdated }

/-- Modelled from the spec: `updateOneById(id, partialDocument)` of the
store collaborator applies the patch's fields to the (first) document
with the given identifier, leaving every other document alone. -/
def updateOneById (docs : List Doc) (i : Nat) (p : DocPatch) : List Doc :=
  match docs with
  | [] => []
  | d :: ds =>
    if d._id == i then applyPatch d p :: ds
    else d :: updateOneById ds i p

/-- Modelled from the spec: `readOneById(id)` of the store collaborator
returns the document with the given identifier, or absent. -/
def readOneById (docs : List Doc) (i : Nat) : Option Doc :=
  docs.find? (fun d => d._id == i)

/-- Modelled from the spec: `popOneById(id)` of the store collaborator
removes and returns the document with the given identifier, or returns
absent and removes nothing. -/
def popOneById (docs : List Doc) (i : Nat) : Option Doc × List Doc :=
  match docs with
  | [] => (none, [])
  | d :: ds =>
    if d._id == i then (some d, ds)
    else
      let r := popOneById ds i
      (r.1, d :: r.2)

/-- The JSON payload the "read" body emits: `res.json({ documents })`. -/
structure ReadResponse where
  documents : List Doc
deriving Repr, DecidableEq

/-- The JSON payload the "update" body emits:
`res.json({ document })`. -/
structure UpdateResponse where
  document : Option Doc
deriving Repr, DecidableEq

/-- The JSON payload the "delete" body emits:
`res.json({ document })`. -/
structure DeleteResponse where
  document : Option Doc
deriving Repr, DecidableEq

/-- The action body `defineReadAction` registers under "read": it calls
`readMany` with the request's filter and the sort specification
`dateUpdated: -1`, and responds with the returned documents. -/
def readActionBody (docs : List Doc) (filter : Doc → Bool) :
    ReadResponse :=
  ⟨readMany docs filter (-1)⟩

/-- The action body `defineUpdateAction` registers under "update": it
applies the request's partial document to the identified document via
`updateOneById`, re-fetches that document via `readOneById`, and
responds with the re-fetched state.  Returns the new store contents
alongside the response. -/
def updateActionBody (docs : List Doc) (i : Nat) (p : DocPatch) :
    List Doc × UpdateResponse :=
  let docs' := updateOneById docs i p
  (docs', ⟨readOneById docs' i⟩)

/-- The action body `defineDeleteAction` registers under "delete": it
pops the identified document via `popOneById` and responds with the
popped document (or null).  Returns the new store contents alongside
the response. -/
def deleteActionBody (docs : List Doc) (i : Nat) :
    List Doc × DeleteResponse :=
  let r := popOneById docs i
  (r.2, ⟨r.1⟩)

/-- Applying a patch never changes the store-issued identifier. -/
theorem applyPatch_id (d : Doc) (p : DocPatch) :
    (applyPatch d p)._id = d._id := rfl

/-- Re-fetching after an in-place patch sees exactly the patched
document. -/
theorem readOneById_updateOneById (docs : List Doc) (i : Nat)
    (p : DocPatch) :
    readOneById (updateOneById docs i p) i =
      (readOneById docs i).map (fun d => applyPatch d p) := by
  induction docs with
  | nil => rfl
  | cons d ds ih =>
    cases hb : (d._id == i) with
    | true =>
      have hb' : ((applyPatch d p)._id == i) = true := by
        rw [applyPatch_id]; exact hb
      simp [updateOneById, readOneById, List.find?, hb, hb']
    | false =>
      simp only [updateOneById, hb, if_false, Bool.false_eq_true,
        if_neg, readOneById, List.find?] at *
      exact ih

/-- The popped document is exactly what a lookup by the same identifier
finds. -/
theorem popOneById_fst (docs : List Doc) (i : Nat) :
    (popOneById docs i).1 = readOneById docs i := by
  induction docs with
  | nil => rfl
  | cons d ds ih =>
    cases hb : (d._id == i) with
    | true => simp [popOneById, readOneById, List.find?, hb]
    | false =>
      simp only [popOneById, readOneById, List.find?, hb] at *
      exact ih

/-- When no document matches, popping removes nothing. -/
theorem popOneById_miss_snd (docs : List Doc) (i : Nat)
    (h : readOneById docs i = none) :
    (popOneById docs i).2 = docs := by
  induction docs with
  | nil => rfl
  | cons d ds ih =>
    cases hb : (d._id == i) with
    | true =>
      exfalso
      simp [readOneById, List.find?, hb] at h
    | false =>
      simp only [readOneById, List.find?, hb] at h
      simp only [popOneById, hb, Bool.false_eq_true, if_neg,
        if_false]
      rw [ih h]

end ConceptDb

open ConceptDb

/-- C6: the "read" body requests a descending sort on `dateUpdated` from
the store (it passes the sort specification `-1` literally), so with
three stored documents updated at times T₁ < T₂ < T₃ a read with an
empty filter responds with them newest first: T₃, T₂, T₁. -/
theorem read_returns_newest_first (d₁ d₂ d₃ : Doc)
    (h₁₂ : d₁.dateUpdated < d₂.dateUpdated)
    (h₂₃ : d₂.dateUpdated < d₃.dateUpdated) :
    readActionBody [d₁, d₂, d₃] (fun _ => true) =
      ⟨readMany [d₁, d₂, d₃] (fun _ => true) (-1)⟩ ∧
    (readActionBody [d₁, d₂, d₃] (fun _ => true)).documents =
      [d₃, d₂, d₁] := by
  have h₁₃ : d₁.dateUpdated < d₃.dateUpdated := lt_trans h₁₂ h₂₃
  refine ⟨rfl, ?_⟩
  simp [readActionBody, readMany, sortDesc, insertDesc,
    le_of_lt h₁₂, le_of_lt h₂₃, le_of_lt h₁₃,
    not_le_of_lt h₁₂, not_le_of_lt h₂₃, not_le_of_lt h₁₃]

/-- Witness for C6 at concrete documents updated at times 1 < 2 < 3. -/
theorem read_returns_newest_first_witness :
    (readActionBody
        [Doc.mk 1 "a" "" 1, Doc.mk 2 "b" "" 2, Doc.mk 3 "c" "" 3]
        (fun _ => true)).documents =
      [Doc.mk 3 "c" "" 3, Doc.mk 2 "b" "" 2, Doc.mk 1 "a" "" 1] :=
  (read_returns_newest_first (Doc.mk 1 "a" "" 1) (Doc.mk 2 "b" "" 2)
    (Doc.mk 3 "c" "" 3) (by decide) (by decide)).2

/-- C7: the "update" body applies the patch through the store and then
responds with the document re-fetched after the patch, not the patch
echoed back: the response is the patched original, whose identifier is
preserved and whose unpatched fields keep their original values. -/
theorem update_responds_with_refetched_document (docs : List Doc)
    (i : Nat) (p : DocPatch) (d : Doc)
    (h : readOneById docs i = some d) :
    (updateActionBody docs i p).2.document = some (applyPatch d p) ∧
    (applyPatch d p)._id = d._id ∧
    (p.title = none → (applyPatch d p).title = d.title) ∧
    (p.content = none → (applyPatch d p).content = d.content) ∧
    (p.dateUpdated = none →
      (applyPatch d p).dateUpdated = d.dateUpdated) := by
  refine ⟨?_, applyPatch_id d p, ?_, ?_, ?_⟩
  · show readOneById (updateOneById docs i p) i = some (applyPatch d p)
    rw [readOneById_updateOneById, h]
    rfl
  · intro hp; simp [applyPatch, hp]
  · intro hp; simp [applyPatch, hp]
  · intro hp; simp [applyPatch, hp]

/-- Witness for C7 at a concrete one-document store, patching only the
title: `content` and `dateUpdated` come back intact. -/
theorem update_responds_with_refetched_document_witness :
    (updateActionBody [Doc.mk 1 "x" "keep" 5] 1
        (DocPatch.mk (some "y") none none)).2.document =
      some (Doc.mk 1 "y" "keep" 5) :=
  (update_responds_with_refetched_document [Doc.mk 1 "x" "keep" 5] 1
    (DocPatch.mk (some "y") none none) (Doc.mk 1 "x" "keep" 5) rfl).1

/-- C8: the "delete" body never raises; on an identifier matching no
document it responds with a null document and removes nothing, and on a
match it responds with the removed document. -/
theorem delete_body_miss_and_hit (docs : List Doc) (i : Nat) :
    (readOneById docs i = none →
      (deleteActionBody docs i).2.document = none ∧
      (deleteActionBody docs i).1 = docs) ∧
    ∀ d, readOneById docs i = some d →
      (deleteActionBody docs i).2.document = some d := by
  constructor
  · intro h
    constructor
    · show (popOneById docs i).1 = none
      rw [popOneById_fst, h]
    · show (popOneById docs i).2 = docs
      exact popOneById_miss_snd docs i h
  · intro d h
    show (popOneById docs i).1 = some d
    rw [popOneById_fst, h]

/-- Witness for C8 at a concrete one-document store: a miss responds
null and leaves the store as it was, a hit responds with the removed
document. -/
theorem delete_body_miss_and_hit_witness :
    ((deleteActionBody [Doc.mk 1 "t" "c" 0] 2).2.document = none ∧
      (deleteActionBody [Doc.mk 1 "t" "c" 0] 2).1 =
        [Doc.mk 1 "t" "c" 0]) ∧
    (deleteActionBody [Doc.mk 1 "t" "c" 0] 1).2.document =
      some (Doc.mk 1 "t" "c" 0) :=
  ⟨(delete_body_miss_and_hit [Doc.mk 1 "t" "c" 0] 2).1 rfl,
   (delete_body_miss_and_hit [Doc.mk 1 "t" "c" 0] 1).2
     (Doc.mk 1 "t" "c" 0) rfl⟩
